import Mathlib

/-!
Verification development for the olympiad registration bot
(`config.py`, `db.py`, `handlers.py`, `texts.py`).

The Python sources are shallowly embedded: pure helpers become Lean
functions over `String`/`List Char`, the SQLAlchemy-backed store becomes an
explicit `Store` value threaded through the operations, and the aiogram
finite-state conversation becomes a step function on an explicit session
record.  Machine integers are modelled as `Nat`/`Int` (no overflow is
relevant anywhere in this code).
-/

/-! ## Python string primitives -/

/-- The set of characters stripped by Python `str.strip()` and matched by
the regex class `\s` on `str` patterns (ASCII whitespace, the C1 separators,
NEL, NBSP and the Unicode space/line/paragraph separators). -/
def isPySpace (c : Char) : Bool :=
  let n := c.toNat
  n = 0x20 || (0x9 ≤ n && n ≤ 0xD) || (0x1C ≤ n && n ≤ 0x1F) ||
  n = 0x85 || n = 0xA0 || n = 0x1680 || (0x2000 ≤ n && n ≤ 0x200A) ||
  n = 0x2028 || n = 0x2029 || n = 0x202F || n = 0x205F || n = 0x3000

/-- Python `str.strip()`: drop leading and trailing whitespace. -/
def pyStrip (s : String) : String :=
  String.mk (((s.data.dropWhile isPySpace).reverse.dropWhile isPySpace).reverse)

/-- Decimal digit character, as produced by Python `str(int)` for one digit
(only ever applied to arguments below 10; the catch-all arm is the digit 9). -/
def digitChar : Nat → Char
  | 0 => '0' | 1 => '1' | 2 => '2' | 3 => '3' | 4 => '4'
  | 5 => '5' | 6 => '6' | 7 => '7' | 8 => '8' | _ => '9'

/-- Fuel-driven core of the decimal rendering of a natural number. -/
def natDigitsCore : Nat → Nat → List Char → List Char
  | 0, _, acc => acc
  | fuel + 1, n, acc =>
    if n < 10 then digitChar n :: acc
    else natDigitsCore fuel (n / 10) (digitChar (n % 10) :: acc)

/-- Decimal digits of a natural number, most significant first. -/
def natDigits (n : Nat) : List Char :=
  natDigitsCore (n + 1) n []

/-- Python `str` of a non-negative integer. -/
def natRepr (n : Nat) : String :=
  String.mk (natDigits n)

/-- Python `str` of an arbitrary integer. -/
def intRepr (i : Int) : String :=
  if i < 0 then "-" ++ natRepr i.natAbs else natRepr i.toNat

/-! ## `db.py`: transliteration and charge id (`DatabaseManager`) -/

/-- The fixed `cyrillic_to_latin` table of
`DatabaseManager.transliterate_for_order_id` (db.py lines 106-119); a
character outside the table passes through unchanged
(`cyrillic_to_latin.get(char, char)`). -/
def cyrToLat (c : Char) : String :=
  match c with
  | 'а' => "a" | 'б' => "b" | 'в' => "v" | 'г' => "g" | 'д' => "d"
  | 'е' => "e" | 'ё' => "yo" | 'ж' => "zh" | 'з' => "z" | 'и' => "i"
  | 'й' => "y" | 'к' => "k" | 'л' => "l" | 'м' => "m" | 'н' => "n"
  | 'о' => "o" | 'п' => "p" | 'р' => "r" | 'с' => "s" | 'т' => "t"
  | 'у' => "u" | 'ф' => "f" | 'х' => "kh" | 'ц' => "ts" | 'ч' => "ch"
  | 'ш' => "sh" | 'щ' => "shch" | 'ъ' => "" | 'ы' => "y" | 'ь' => ""
  | 'э' => "e" | 'ю' => "yu" | 'я' => "ya"
  | 'ў' => "o" | 'қ' => "q" | 'ғ' => "g" | 'ҳ' => "h"
  | 'А' => "A" | 'Б' => "B" | 'В' => "V" | 'Г' => "G" | 'Д' => "D"
  | 'Е' => "E" | 'Ё' => "Yo" | 'Ж' => "Zh" | 'З' => "Z" | 'И' => "I"
  | 'Й' => "Y" | 'К' => "K" | 'Л' => "L" | 'М' => "M" | 'Н' => "N"
  | 'О' => "O" | 'П' => "P" | 'Р' => "R" | 'С' => "S" | 'Т' => "T"
  | 'У' => "U" | 'Ф' => "F" | 'Х' => "Kh" | 'Ц' => "Ts" | 'Ч' => "Ch"
  | 'Ш' => "Sh" | 'Щ' => "Shch" | 'Ъ' => "" | 'Ы' => "Y" | 'Ь' => ""
  | 'Э' => "E" | 'Ю' => "Yu" | 'Я' => "Ya"
  | 'Ў' => "O" | 'Қ' => "Q" | 'Ғ' => "G" | 'Ҳ' => "H"
  | c => String.mk [c]

/-- The character class kept by the final cleanup
`re.sub(r'[^a-zA-Z0-9]', '', result)` in `transliterate_for_order_id`. -/
def isAsciiAlnum (c : Char) : Bool :=
  let n := c.toNat
  (97 ≤ n && n ≤ 122) || (65 ≤ n && n ≤ 90) || (48 ≤ n && n ≤ 57)

/-- `DatabaseManager.transliterate_for_order_id` (db.py lines 103-126):
accumulate the transliteration of each character into `result`, then remove
every character that is not ASCII alphanumeric. -/
def transliterate_for_order_id (text : String) : String :=
  let result := text.data.foldl (fun acc c => acc ++ cyrToLat c) ""
  String.mk (result.data.filter isAsciiAlnum)

/-- `DatabaseManager.generate_charge_id` (db.py lines 128-136). -/
def generate_charge_id (db_id : Nat) (surname name : String) (grade : Int) : String :=
  let clean_surname := transliterate_for_order_id surname
  let clean_name := transliterate_for_order_id name
  natRepr db_id ++ "_" ++ clean_surname ++ "_" ++ clean_name ++ "_" ++ intRepr grade

/-- The specification's description of the cleanup: transliterate character
by character with the fixed map (unmapped characters pass through), then
strip every character that is not in the class A-Z a-z 0-9. -/
def translitCleanSpec (text : String) : String :=
  String.mk (((text.data.map (fun c => (cyrToLat c).data)).flatten).filter isAsciiAlnum)

theorem foldl_translit (l : List Char) (acc : String) :
    (l.foldl (fun a c => a ++ cyrToLat c) acc).data
      = acc.data ++ (l.map (fun c => (cyrToLat c).data)).flatten := by
  induction l generalizing acc with
  | nil => simp
  | cons c l ih => simp [ih, String.data_append]

theorem translit_eq_spec (s : String) :
    transliterate_for_order_id s = translitCleanSpec s := by
  simp [transliterate_for_order_id, translitCleanSpec, foldl_translit]

/-! ## `handlers.py`: checkout link builder (`generate_payme_link`) -/

/-- UTF-8 encoding of one character (Python `str.encode` of one code point),
as a list of byte values. -/
def utf8Char (c : Char) : List Nat :=
  let n := c.toNat
  if n < 0x80 then [n]
  else if n < 0x800 then [0xC0 + n / 64, 0x80 + n % 64]
  else if n < 0x10000 then [0xE0 + n / 4096, 0x80 + (n / 64) % 64, 0x80 + n % 64]
  else [0xF0 + n / 262144, 0x80 + (n / 4096) % 64, 0x80 + (n / 64) % 64, 0x80 + n % 64]

/-- Python `params.encode('utf-8')`: the UTF-8 bytes of a string. -/
def utf8Bytes (s : String) : List Nat :=
  (s.data.map utf8Char).flatten

/-- The standard base64 alphabet used by Python `base64.b64encode`. -/
def b64Char (n : Nat) : Char :=
  "ABCDEFGHIJKLMNOPQRSTUVWXYZabcdefghijklmnopqrstuvwxyz0123456789+/".data.getD n '='

/-- Standard base64 of a byte list, with `=` padding, as produced by
Python `base64.b64encode`. -/
def base64Chars : List Nat → List Char
  | [] => []
  | [b0] => [b64Char (b0 / 4), b64Char (b0 % 4 * 16), '=', '=']
  | [b0, b1] => [b64Char (b0 / 4), b64Char (b0 % 4 * 16 + b1 / 16), b64Char (b1 % 16 * 4), '=']
  | b0 :: b1 :: b2 :: rest =>
    b64Char (b0 / 4) :: b64Char (b0 % 4 * 16 + b1 / 16) ::
      b64Char (b1 % 16 * 4 + b2 / 64) :: b64Char (b2 % 64) :: base64Chars rest

/-- `base64.b64encode(...).decode('utf-8')` on the UTF-8 bytes of a string. -/
def b64encode (bytes : List Nat) : String :=
  String.mk (base64Chars bytes)

/-- `generate_payme_link` (handlers.py lines 139-167): build the parameter
string, base64-encode its UTF-8 bytes, and append to the fixed checkout
origin. -/
def generate_payme_link (merchant_id : String) (amount : Int) (charge_id : String) : String :=
  let params := "m=" ++ merchant_id ++ ";ac.charge_id=" ++ charge_id
      ++ ";a=" ++ intRepr amount ++ ";l=ru"
  let encoded := b64encode (utf8Bytes params)
  "https://checkout.paycom.uz/" ++ encoded

/-! ## `config.py` and `handlers.py`: validators -/

/-- `MIN_GRADE` (config.py line 46). -/
def MIN_GRADE : Int := 1

/-- `MAX_GRADE` (config.py line 47). -/
def MAX_GRADE : Int := 8

/-- The character class of the `validate_name` regex (handlers.py line 119).
The class in the source file is mojibake (the original Cyrillic letters were
decoded as cp1254 at some point), so the accepted characters are, in order:
a-z, A-Z, U+011E, the range U+00B0-U+00D1, the degenerate range
U+011E-U+011E, U+00AF, U+00D1, U+2018, U+011E, U+00D1, U+011E, U+00D2,
U+203A, U+0161, U+201C, U+2019, U+00B3, U+00B2, whitespace, hyphen and
apostrophe. -/
def nameCharOk (c : Char) : Bool :=
  let n := c.toNat
  (97 ≤ n && n ≤ 122) || (65 ≤ n && n ≤ 90) ||
  n = 0x11E || (0xB0 ≤ n && n ≤ 0xD1) || n = 0xAF || n = 0x2018 ||
  n = 0xD2 || n = 0x203A || n = 0x161 || n = 0x201C || n = 0x2019 ||
  n = 0xB3 || n = 0xB2 || isPySpace c || n = 45 || n = 39

/-- `validate_name` (handlers.py lines 117-119): the stripped text fully
matches one-or-more characters of the class above. -/
def validate_name (text : String) : Bool :=
  let t := pyStrip text
  !(t.data.isEmpty) && t.data.all nameCharOk

/-- Local-part class of the `validate_email` regex `[a-zA-Z0-9._%+-]`. -/
def emailLocalOk (c : Char) : Bool :=
  isAsciiAlnum c || c = '.' || c = '_' || c = '%' || c = '+' || c = '-'

/-- Domain class of the `validate_email` regex `[a-zA-Z0-9.-]`. -/
def emailDomainOk (c : Char) : Bool :=
  isAsciiAlnum c || c = '.' || c = '-'

/-- ASCII letter, the class `[a-zA-Z]` of the TLD in `validate_email`. -/
def isAsciiAlpha (c : Char) : Bool :=
  let n := c.toNat
  (97 ≤ n && n ≤ 122) || (65 ≤ n && n ≤ 90)

/-- `validate_email` (handlers.py lines 122-125): the stripped text matches
the regex local part, one `@`, then a domain, a dot, and a TLD of at least
two letters running to the end of the string.  Since no character class of
the regex contains `@`, the split at `@` is forced, and since the TLD class
contains no dot, a successful match always uses the last dot of the domain
part; the matcher below implements exactly that decomposition. -/
def validate_email (email : String) : Bool :=
  let t := (pyStrip email).data
  (t.count '@' == 1) &&
  (let localPart := t.takeWhile (fun c => c ≠ '@')
   let rest := (t.dropWhile (fun c => c ≠ '@')).tail
   !localPart.isEmpty && localPart.all emailLocalOk &&
   (let rev := rest.reverse
    let tld := (rev.takeWhile (fun c => c ≠ '.')).reverse
    match rev.dropWhile (fun c => c ≠ '.') with
    | [] => false
    | _ :: domRev =>
      !domRev.isEmpty && domRev.all emailDomainOk &&
      decide (2 ≤ tld.length) && tld.all isAsciiAlpha))

/-- The first code points of the 66 runs of Unicode decimal digits
(category Nd).  Every Nd character sits in a run of ten consecutive code
points whose decimal values are 0..9 in order, so a base `b` covers
`b..b+9`.  Python `int(str)` converts every Nd character to its decimal
value (for example both the Arabic-Indic five and the fullwidth five parse
as 5). -/
def ndRangeBases : List Nat :=
  [0x30, 0x660, 0x6F0, 0x7C0, 0x966, 0x9E6, 0xA66, 0xAE6, 0xB66, 0xBE6,
   0xC66, 0xCE6, 0xD66, 0xDE6, 0xE50, 0xED0, 0xF20, 0x1040, 0x1090, 0x17E0,
   0x1810, 0x1946, 0x19D0, 0x1A80, 0x1A90, 0x1B50, 0x1BB0, 0x1C40, 0x1C50,
   0xA620, 0xA8D0, 0xA900, 0xA9D0, 0xA9F0, 0xAA50, 0xABF0, 0xFF10, 0x104A0,
   0x10D30, 0x11066, 0x110F0, 0x11136, 0x111D0, 0x112F0, 0x11450, 0x114D0,
   0x11650, 0x116C0, 0x11730, 0x118E0, 0x11950, 0x11C50, 0x11D50, 0x11DA0,
   0x16A60, 0x16AC0, 0x16B50, 0x1D7CE, 0x1D7D8, 0x1D7E2, 0x1D7EC, 0x1D7F6,
   0x1E140, 0x1E2F0, 0x1E950, 0x1FBF0]

/-- The decimal value Python `int(str)` assigns to a character: its Nd
decimal-digit value when it has one, none otherwise (every other character,
including signs and underscores, is not a digit). -/
def decDigit? (c : Char) : Option Nat :=
  (ndRangeBases.find? (fun b => b ≤ c.toNat && c.toNat ≤ b + 9)).map
    (fun b => c.toNat - b)

/-- Digit-string accumulator of Python `int(str)`: decimal digits (any
Unicode Nd script), possibly with single underscores between two digits. -/
def pyDigitsGo : List Char → Nat → Option Nat
  | [], acc => some acc
  | '_' :: c :: rest, acc =>
    match decDigit? c with
    | some d => pyDigitsGo rest (10 * acc + d)
    | none => none
  | c :: rest, acc =>
    match decDigit? c with
    | some d => pyDigitsGo rest (10 * acc + d)
    | none => none

/-- Digit string with optional grouping underscores (must start with a
digit, and every underscore sits between two digits). -/
def pyDigits : List Char → Option Nat
  | [] => none
  | c :: rest =>
    match decDigit? c with
    | some d => pyDigitsGo rest d
    | none => none

/-- Python `int(str)` on already-stripped text: an optional ASCII sign
followed by a nonempty digit string of Unicode decimal digits with
optional grouping underscores. -/
def pyParseInt (t : String) : Option Int :=
  match t.data with
  | '+' :: rest => (pyDigits rest).map (fun n => (n : Int))
  | '-' :: rest => (pyDigits rest).map (fun n => -(n : Int))
  | l => (pyDigits l).map (fun n => (n : Int))

/-- `validate_grade` (handlers.py lines 128-137): `int(text.strip())` must
succeed and the value must lie within `MIN_GRADE..MAX_GRADE`; every failure
(including the `ValueError` of a non-numeric string) yields `(False, 0)`. -/
def validate_grade (text : String) : Bool × Int :=
  match pyParseInt (pyStrip text) with
  | some grade => if MIN_GRADE ≤ grade && grade ≤ MAX_GRADE then (true, grade) else (false, 0)
  | none => (false, 0)

/-! ## `texts.py` phrases and `handlers.py` conversation machine -/

/-- The three localized cancel-button texts (`texts.py`, key `cancel`). -/
def cancelTexts : List String :=
  ["❌ Отмена", "❌ Bekor qilish", "❌ Cancel"]

/-- `is_cancel_text` (handlers.py lines 170-173). -/
def is_cancel_text (text : String) : Bool :=
  cancelTexts.contains (pyStrip text)

/-- The three localized register-another-button texts
(`texts.py`, key `register_another`). -/
def registerAnotherTexts : List String :=
  ["➕ Зарегистрировать ещё одного участника",
   "➕ Yana bir ishtirokchini ro\x27yxatdan o\x27tkazish",
   "➕ Register another participant"]

/-- `LanguageEnum` (db.py lines 17-21). -/
inductive LanguageEnum
  | RU
  | UZ
  | EN
deriving DecidableEq, Repr

/-- `RegState` (handlers.py lines 54-65): the FSM states of the
registration conversation. -/
inductive RegState
  | LanguageSelect
  | ParentName
  | Email
  | Surname
  | Name
  | Grade
  | School
  | Phone
  | Payment
  | ScreenshotProof
deriving DecidableEq, Repr

/-- The aiogram per-conversation `FSMContext` data dictionary: each key that
the handlers ever store, as an optional typed field. -/
structure SessData where
  language : Option LanguageEnum := none
  parent_name : Option String := none
  email : Option String := none
  surname : Option String := none
  name : Option String := none
  grade : Option Int := none
  school : Option String := none
  phone : Option String := none
  registration_id : Option Nat := none
  charge_id : Option String := none
deriving DecidableEq, Repr

/-- A conversation session: the FSM state (none when cleared) together with
the accumulated data. -/
structure Fsm where
  step : Option RegState
  data : SessData
deriving DecidableEq, Repr

/-- `cmd_cancel` (handlers.py lines 197-212): clear the state and the data,
answer with the localized `cancelled` notice. -/
def cmd_cancel_result : Fsm × List String :=
  (⟨none, {}⟩, ["cancelled"])

/-- `process_parent_name` (handlers.py lines 511-536). -/
def process_parent_name (fsm : Fsm) (text : String) : Fsm × List String :=
  let parent_name := pyStrip text
  if is_cancel_text parent_name then cmd_cancel_result
  else if !validate_name parent_name || parent_name.length < 2 then
    (fsm, ["invalid_parent_name"])
  else
    (⟨some RegState.Email, { fsm.data with parent_name := some parent_name }⟩, ["ask_email"])

/-- `process_email` (handlers.py lines 541-566). -/
def process_email (fsm : Fsm) (text : String) : Fsm × List String :=
  let email := pyStrip text
  if is_cancel_text email then cmd_cancel_result
  else if !validate_email email then (fsm, ["invalid_email"])
  else (⟨some RegState.Surname, { fsm.data with email := some email }⟩, ["ask_surname"])

/-- `process_surname` (handlers.py lines 571-596). -/
def process_surname (fsm : Fsm) (text : String) : Fsm × List String :=
  let surname := pyStrip text
  if is_cancel_text surname then cmd_cancel_result
  else if !validate_name surname || surname.length < 2 then (fsm, ["invalid_surname"])
  else (⟨some RegState.Name, { fsm.data with surname := some surname }⟩, ["ask_name"])

/-- `process_name` (handlers.py lines 601-626). -/
def process_name (fsm : Fsm) (text : String) : Fsm × List String :=
  let nm := pyStrip text
  if is_cancel_text nm then cmd_cancel_result
  else if !validate_name nm || nm.length < 2 then (fsm, ["invalid_name"])
  else (⟨some RegState.Grade, { fsm.data with name := some nm }⟩, ["ask_grade"])

/-- `process_grade` (handlers.py lines 631-657). -/
def process_grade (fsm : Fsm) (text : String) : Fsm × List String :=
  let grade_text := pyStrip text
  if is_cancel_text grade_text then cmd_cancel_result
  else
    match validate_grade grade_text with
    | (false, _) => (fsm, ["invalid_grade"])
    | (true, grade) =>
      (⟨some RegState.School, { fsm.data with grade := some grade }⟩, ["ask_school"])

/-- `process_school` (handlers.py lines 662-687). -/
def process_school (fsm : Fsm) (text : String) : Fsm × List String :=
  let school := pyStrip text
  if is_cancel_text school then cmd_cancel_result
  else if school.data.isEmpty || school.length < 2 then (fsm, ["invalid_school"])
  else (⟨some RegState.Phone, { fsm.data with school := some school }⟩, ["ask_phone"])

/-- `process_phone_text` (handlers.py lines 752-764): free text while a
contact share is expected. -/
def process_phone_text (fsm : Fsm) (text : String) : Fsm × List String :=
  if is_cancel_text (pyStrip text) then cmd_cancel_result
  else (fsm, ["invalid_phone"])

/-- `process_invalid_screenshot` (handlers.py lines 880-888): any non-photo
input while a screenshot is expected; note that no cancel check happens. -/
def process_invalid_screenshot (fsm : Fsm) : Fsm × List String :=
  (fsm, ["invalid_screenshot"])

/-- `process_register_another` (handlers.py lines 893-917): clear the data,
keep the language (falling back to English), restart at `ParentName`. -/
def process_register_another (fsm : Fsm) : Fsm × List String :=
  let lang := fsm.data.language.getD LanguageEnum.EN
  (⟨some RegState.ParentName, { language := some lang }⟩, ["welcome", "ask_parent_name"])

/-- `handle_unknown` (handlers.py lines 922-935): reply with help only when
no state is active, otherwise stay silent. -/
def handle_unknown (fsm : Fsm) : Fsm × List String :=
  match fsm.step with
  | none => (fsm, ["help"])
  | some _ => (fsm, [])

/-- The aiogram router dispatch for a plain (non-command) text message:
handlers are tried in registration order, so a state-filtered text handler
wins when one exists for the current state; otherwise the state-free
register-another handler matches on its exact button texts, and the final
catch-all runs last. -/
def handleText (fsm : Fsm) (text : String) : Fsm × List String :=
  match fsm.step with
  | some RegState.ParentName => process_parent_name fsm text
  | some RegState.Email => process_email fsm text
  | some RegState.Surname => process_surname fsm text
  | some RegState.Name => process_name fsm text
  | some RegState.Grade => process_grade fsm text
  | some RegState.School => process_school fsm text
  | some RegState.Phone => process_phone_text fsm text
  | some RegState.ScreenshotProof => process_invalid_screenshot fsm
  | _ =>
    if registerAnotherTexts.contains text then process_register_another fsm
    else handle_unknown fsm

/-! ## `db.py`: the record store (`User` rows and `DatabaseManager`) -/

/-- The `User` model (db.py lines 29-68), one row per registration.
`telegram_id` carries no uniqueness constraint. -/
structure Row where
  id : Nat
  telegram_id : Int
  username : Option String
  parent_name : String
  email : String
  phone : String
  surname : String
  name : String
  grade : Int
  school : String
  charge_id : Option String
  language : LanguageEnum
  payment_status : Bool
  screenshot_file_id : Option String
  created_at : Nat
deriving DecidableEq, Repr

/-- The database: the stored rows in insertion order, plus the
autoincrement counter that assigns the next primary key. -/
structure Store where
  rows : List Row
  nextId : Nat
deriving DecidableEq, Repr

/-- `DatabaseManager.create_user` (db.py lines 138-187): insert the row
(primary key assigned by autoincrement, `charge_id` still null), then
generate `charge_id` from the assigned database id and commit again; the
refreshed row is returned. -/
def create_user (st : Store) (telegram_id : Int) (username : Option String)
    (parent_name email phone surname name : String) (grade : Int)
    (school : String) (language : LanguageEnum) (payment_status : Bool)
    (screenshot_file_id : Option String) (now : Nat) : Store × Row :=
  let uid := st.nextId
  let user : Row :=
    { id := uid, telegram_id, username, parent_name, email, phone, surname,
      name, grade, school, charge_id := none, language, payment_status,
      screenshot_file_id, created_at := now }
  let user := { user with charge_id := some (generate_charge_id uid surname name grade) }
  ({ rows := st.rows ++ [user], nextId := uid + 1 }, user)

/-- Python truthiness of the optional `screenshot_file_id` argument:
`None` and the empty string are falsy. -/
def pyTruthy : Option String → Bool
  | none => false
  | some s => !(s == "")

/-- The per-row effect of `update_registration_payment`: set
`payment_status`, and overwrite `screenshot_file_id` only when the supplied
value is truthy (`if screenshot_file_id:`). -/
def updRow (payment_status : Bool) (screenshot_file_id : Option String) (r : Row) : Row :=
  { r with payment_status,
           screenshot_file_id :=
             if pyTruthy screenshot_file_id then screenshot_file_id
             else r.screenshot_file_id }

/-- `DatabaseManager.update_registration_payment` (db.py lines 222-238):
look the row up by primary key; when absent, nothing is written and `None`
is returned; when present, apply `updRow` and return the refreshed row. -/
def update_registration_payment (st : Store) (registration_id : Nat)
    (payment_status : Bool) (screenshot_file_id : Option String) :
    Store × Option Row :=
  match st.rows.find? (fun r => r.id == registration_id) with
  | none => (st, none)
  | some user =>
    ({ st with
        rows := st.rows.map (fun r =>
          if r.id == registration_id then updRow payment_status screenshot_file_id r
          else r) },
     some (updRow payment_status screenshot_file_id user))

theorem digitChar_toNat (n : Nat) (h : n < 10) : (digitChar n).toNat = 48 + n := by
  interval_cases n <;> decide

theorem digitChar_range (n : Nat) : 48 ≤ (digitChar n).toNat ∧ (digitChar n).toNat ≤ 57 := by
  unfold digitChar
  split <;> decide

theorem natDigitsCore_range : ∀ (fuel n : Nat) (acc : List Char),
    (∀ c ∈ acc, 48 ≤ c.toNat ∧ c.toNat ≤ 57) →
    ∀ c ∈ natDigitsCore fuel n acc, 48 ≤ c.toNat ∧ c.toNat ≤ 57 := by
  intro fuel
  induction fuel with
  | zero => intro n acc h; simpa [natDigitsCore] using h
  | succ fuel ih =>
    intro n acc h c hc
    rw [natDigitsCore] at hc
    by_cases hn : n < 10
    · simp only [if_pos hn, List.mem_cons] at hc
      rcases hc with rfl | hc
      · exact digitChar_range n
      · exact h c hc
    · simp only [if_neg hn] at hc
      refine ih (n / 10) (digitChar (n % 10) :: acc) ?_ c hc
      intro d hd
      rcases List.mem_cons.mp hd with rfl | hd
      · exact digitChar_range (n % 10)
      · exact h d hd

theorem natDigits_range (n : Nat) : ∀ c ∈ natDigits n, 48 ≤ c.toNat ∧ c.toNat ≤ 57 :=
  natDigitsCore_range (n + 1) n [] (by simp)

def evalDigits (l : List Char) : Nat :=
  l.foldl (fun a c => 10 * a + (c.toNat - 48)) 0

theorem natDigitsCore_eval : ∀ (fuel n : Nat) (acc : List Char), n < 10 ^ fuel →
    List.foldl (fun a c => 10 * a + (c.toNat - 48)) 0 (natDigitsCore fuel n acc)
      = List.foldl (fun a c => 10 * a + (c.toNat - 48)) n acc := by
  intro fuel
  induction fuel with
  | zero =>
    intro n acc h
    have : n = 0 := by omega
    subst this
    simp [natDigitsCore]
  | succ fuel ih =>
    intro n acc h
    rw [natDigitsCore]
    by_cases hn : n < 10
    · rw [if_pos hn]
      simp [List.foldl_cons, digitChar_toNat n hn]
    · rw [if_neg hn]
      have hdiv : n / 10 < 10 ^ fuel := by
        rw [Nat.div_lt_iff_lt_mul (by omega)]
        calc n < 10 ^ (fuel + 1) := h
        _ = 10 ^ fuel * 10 := by ring
      rw [ih (n / 10) (digitChar (n % 10) :: acc) hdiv]
      have h10 : n % 10 < 10 := Nat.mod_lt _ (by omega)
      simp [List.foldl_cons, digitChar_toNat _ h10]
      congr 1
      omega

theorem natDigits_eval (n : Nat) : evalDigits (natDigits n) = n := by
  have hb : n < 10 ^ (n + 1) :=
    lt_of_lt_of_le (Nat.lt_pow_self (by omega) n)
      (Nat.pow_le_pow_right (by omega) (Nat.le_succ n))
  simpa [natDigits, evalDigits] using natDigitsCore_eval (n + 1) n [] hb

theorem natDigits_inj {a b : Nat} (h : natDigits a = natDigits b) : a = b := by
  have := congrArg evalDigits h
  rwa [natDigits_eval, natDigits_eval] at this

theorem takeWhile_append_all {p : Char → Bool} (xs : List Char) (y : Char) (zs : List Char)
    (h : ∀ x ∈ xs, p x = true) (hy : p y = false) :
    (xs ++ y :: zs).takeWhile p = xs := by
  induction xs with
  | nil => simp [List.takeWhile_cons, hy]
  | cons a l ih =>
    simp [List.takeWhile_cons, h a (by simp),
      ih (fun x hx => h x (by simp [hx]))]

theorem generate_charge_id_data (a : Nat) (s n : String) (g : Int) :
    (generate_charge_id a s n g).data
      = natDigits a ++ '_' ::
          ((transliterate_for_order_id s).data ++ '_' ::
            ((transliterate_for_order_id n).data ++ '_' :: (intRepr g).data)) := by
  simp [generate_charge_id, natRepr, String.data_append]

theorem generate_charge_id_inj {a b : Nat} {s1 n1 s2 n2 : String} {g1 g2 : Int}
    (hne : a ≠ b) : generate_charge_id a s1 n1 g1 ≠ generate_charge_id b s2 n2 g2 := by
  intro heq
  apply hne
  apply natDigits_inj
  have hdata := congrArg String.data heq
  rw [generate_charge_id_data, generate_charge_id_data] at hdata
  have hund : ∀ (m : Nat), ∀ x ∈ natDigits m, (!(x == '_')) = true := by
    intro m x hx
    have hr := natDigits_range m x hx
    have hne95 : x.toNat ≠ 95 := by omega
    simp only [Bool.not_eq_eq_eq_not, Bool.not_true, beq_eq_false_iff_ne]
    intro hcon
    exact hne95 (by rw [hcon]; rfl)
  have h1 := takeWhile_append_all (p := fun c => !(c == '_')) (natDigits a) '_'
      ((transliterate_for_order_id s1).data ++ '_' ::
        ((transliterate_for_order_id n1).data ++ '_' :: (intRepr g1).data))
      (hund a) (by simp)
  have h2 := takeWhile_append_all (p := fun c => !(c == '_')) (natDigits b) '_'
      ((transliterate_for_order_id s2).data ++ '_' ::
        ((transliterate_for_order_id n2).data ++ '_' :: (intRepr g2).data))
      (hund b) (by simp)
  rw [← h1, hdata, h2]

/-! ## Claim theorems -/

/-- C1: the charge-reference generator transliterates surname and given
name character by character with the fixed Cyrillic-to-Latin map (unmapped
characters pass through), strips every character outside A-Za-z0-9 from
each transliterated part, and composes id, cleaned surname, cleaned given
name and grade separated by underscores; in particular
generate(42, Иванов, Иван, 5) is 42_Ivanov_Ivan_5, and
generate(1, Қаҳҳоров, Ҳасан, 3) maps Қ to Q, ҳ to h, Ҳ to H and yields a
string made only of A-Za-z0-9 and underscore. -/
theorem charge_reference_generator_correct :
    (∀ (i : Nat) (s n : String) (g : Int),
        generate_charge_id i s n g
          = natRepr i ++ "_" ++ translitCleanSpec s ++ "_"
              ++ translitCleanSpec n ++ "_" ++ intRepr g)
    ∧ generate_charge_id 42 "Иванов" "Иван" 5 = "42_Ivanov_Ivan_5"
    ∧ cyrToLat 'Қ' = "Q" ∧ cyrToLat 'ҳ' = "h" ∧ cyrToLat 'Ҳ' = "H"
    ∧ generate_charge_id 1 "Қаҳҳоров" "Ҳасан" 3 = "1_Qahhorov_Hasan_3"
    ∧ (generate_charge_id 1 "Қаҳҳоров" "Ҳасан" 3).data.all
        (fun c => isAsciiAlnum c || c == '_') = true := by
  refine ⟨fun i s n g => ?_, by decide, by decide, by decide, by decide, by decide, by decide⟩
  simp [generate_charge_id, translit_eq_spec]

/-- C2: the checkout-link builder returns the fixed checkout origin with
one appended path segment, the base64 of the UTF-8 bytes of the parameter
string m=...;ac.charge_id=...;a=...;l=ru; in particular the link for
merchant 12345, amount 5000000 and charge reference 42_Ivanov_Ivan_5 is the
base64 of the corresponding parameter string appended to the origin. -/
theorem checkout_link_builder_correct :
    (∀ (m : String) (a : Int) (c : String),
        generate_payme_link m a c
          = "https://checkout.paycom.uz/"
              ++ b64encode (utf8Bytes
                  ("m=" ++ m ++ ";ac.charge_id=" ++ c ++ ";a=" ++ intRepr a ++ ";l=ru")))
    ∧ generate_payme_link "12345" 5000000 "42_Ivanov_Ivan_5"
        = "https://checkout.paycom.uz/"
            ++ b64encode (utf8Bytes "m=12345;ac.charge_id=42_Ivanov_Ivan_5;a=5000000;l=ru")
    ∧ generate_payme_link "12345" 5000000 "42_Ivanov_Ivan_5"
        = "https://checkout.paycom.uz/bT0xMjM0NTthYy5jaGFyZ2VfaWQ9NDJfSXZhbm92X0l2YW5fNTthPTUwMDAwMDA7bD1ydQ==" := by
  refine ⟨fun m a c => rfl, by decide, by decide⟩

/-- C5: create persists a new row with payment unconfirmed, returns it with
its store-assigned id, and the charge reference on the returned row is
generated from that newly assigned id together with surname, given name and
grade. -/
theorem create_user_assigns_id_and_charge (st : Store) (tid : Int)
    (un : Option String) (pn em ph sn nm : String) (gr : Int) (sc : String)
    (lg : LanguageEnum) (now : Nat) :
    (create_user st tid un pn em ph sn nm gr sc lg false none now).2.payment_status = false
    ∧ (create_user st tid un pn em ph sn nm gr sc lg false none now).2.id = st.nextId
    ∧ (create_user st tid un pn em ph sn nm gr sc lg false none now).2.charge_id
        = some (generate_charge_id
            (create_user st tid un pn em ph sn nm gr sc lg false none now).2.id sn nm gr)
    ∧ (create_user st tid un pn em ph sn nm gr sc lg false none now).1.rows
        = st.rows ++ [(create_user st tid un pn em ph sn nm gr sc lg false none now).2]
    ∧ (create_user st tid un pn em ph sn nm gr sc lg false none now).1.nextId
        = st.nextId + 1 :=
  ⟨rfl, rfl, rfl, rfl, rfl⟩

/-- C9: two registrations created from the same account identity are both
persisted, with distinct store-assigned ids, distinct charge references,
and the same account reference; the second creation is not rejected. -/
theorem two_registrations_same_account (st : Store) (tid : Int)
    (un1 un2 : Option String)
    (pn1 em1 ph1 sn1 nm1 sc1 pn2 em2 ph2 sn2 nm2 sc2 : String)
    (gr1 gr2 : Int) (lg1 lg2 : LanguageEnum) (now1 now2 : Nat) :
    let c1 := create_user st tid un1 pn1 em1 ph1 sn1 nm1 gr1 sc1 lg1 false none now1
    let c2 := create_user c1.1 tid un2 pn2 em2 ph2 sn2 nm2 gr2 sc2 lg2 false none now2
    c1.2.telegram_id = tid ∧ c2.2.telegram_id = tid
    ∧ c1.2.id ≠ c2.2.id
    ∧ c1.2.charge_id ≠ c2.2.charge_id
    ∧ c1.2 ∈ c2.1.rows ∧ c2.2 ∈ c2.1.rows := by
  refine ⟨rfl, rfl, by simp [create_user], ?_, by simp [create_user], by simp [create_user]⟩
  show some (generate_charge_id st.nextId sn1 nm1 gr1)
      ≠ some (generate_charge_id (st.nextId + 1) sn2 nm2 gr2)
  intro h
  exact generate_charge_id_inj (by omega) (Option.some.injEq _ _ ▸ h)

/-- C7: marking a registration paid for an id with no corresponding row
signals not-found (the operation returns none rather than a row) and
leaves the store unchanged. -/
theorem markPaid_notfound (st : Store) (regId : Nat) (ps : Bool)
    (scr : Option String) (h : ∀ r ∈ st.rows, (r.id == regId) = false) :
    update_registration_payment st regId ps scr = (st, none) := by
  have hf : st.rows.find? (fun r => r.id == regId) = none :=
    List.find?_eq_none.mpr (by intro x hx; simp [h x hx])
  simp [update_registration_payment, hf]

/-- A concrete one-row store used by the closed witnesses below. -/
def wRow : Row :=
  { id := 1, telegram_id := 10, username := none, parent_name := "Petr",
    email := "p@ex.com", phone := "+998", surname := "Li", name := "Bo",
    grade := 3, school := "School 12", charge_id := some "1_Li_Bo_3",
    language := LanguageEnum.RU, payment_status := false,
    screenshot_file_id := none, created_at := 0 }

/-- A concrete store holding `wRow` only. -/
def wStore : Store := { rows := [wRow], nextId := 2 }

/-- Witness for C7 at a concrete store and an absent id. -/
theorem markPaid_notfound_witness :
    update_registration_payment wStore 5 true (some "file77") = (wStore, none) :=
  markPaid_notfound wStore 5 true (some "file77") (by decide)

/-- C10: the payment update rewrites the stored rows only through `updRow`
on the addressed id, and `updRow` changes at most `payment_status` and
`screenshot_file_id`: every other column is returned unchanged, and the
stored screenshot reference is overwritten only when the supplied value is
truthy, so a falsy (absent or empty) argument preserves it. -/
theorem update_payment_frame (st : Store) (regId : Nat) (ps : Bool)
    (scr : Option String) :
    ((update_registration_payment st regId ps scr).1.rows
      = st.rows.map (fun r => if r.id == regId then updRow ps scr r else r))
    ∧ ∀ r : Row,
        (updRow ps scr r).id = r.id
      ∧ (updRow ps scr r).telegram_id = r.telegram_id
      ∧ (updRow ps scr r).username = r.username
      ∧ (updRow ps scr r).parent_name = r.parent_name
      ∧ (updRow ps scr r).email = r.email
      ∧ (updRow ps scr r).phone = r.phone
      ∧ (updRow ps scr r).surname = r.surname
      ∧ (updRow ps scr r).name = r.name
      ∧ (updRow ps scr r).grade = r.grade
      ∧ (updRow ps scr r).school = r.school
      ∧ (updRow ps scr r).charge_id = r.charge_id
      ∧ (updRow ps scr r).language = r.language
      ∧ (updRow ps scr r).created_at = r.created_at
      ∧ (updRow ps scr r).payment_status = ps
      ∧ (updRow ps scr r).screenshot_file_id
          = (if pyTruthy scr then scr else r.screenshot_file_id) := by
  constructor
  · cases hf : st.rows.find? (fun r => r.id == regId) with
    | none =>
      have hall : ∀ r ∈ st.rows,
          (if r.id == regId then updRow ps scr r else r) = r := by
        intro r hr
        rw [if_neg]
        simpa using List.find?_eq_none.mp hf r hr
      calc (update_registration_payment st regId ps scr).1.rows
          = st.rows := by simp [update_registration_payment, hf]
        _ = st.rows.map id := (List.map_id _).symm
        _ = st.rows.map (fun r => if r.id == regId then updRow ps scr r else r) :=
            (List.map_congr_left hall).symm
    | some u => simp [update_registration_payment, hf]
  · intro r
    refine ⟨rfl, rfl, rfl, rfl, rfl, rfl, rfl, rfl, rfl, rfl, rfl, rfl, rfl, rfl, rfl⟩

theorem updRow_id_eq (ps : Bool) (scr : Option String) (r : Row) :
    (updRow ps scr r).id = r.id := rfl

theorem updRow_idem (ps : Bool) (scr : Option String) (r : Row) :
    updRow ps scr (updRow ps scr r) = updRow ps scr r := by
  cases htr : pyTruthy scr <;> simp [updRow, htr]

theorem find?_cons_true {α : Type} {p : α → Bool} {a : α} {l : List α}
    (h : p a = true) : List.find? p (a :: l) = some a := by
  show (match p a with | true => some a | false => List.find? p l) = some a
  rw [h]

theorem find?_cons_false {α : Type} {p : α → Bool} {a : α} {l : List α}
    (h : p a = false) : List.find? p (a :: l) = List.find? p l := by
  show (match p a with | true => some a | false => List.find? p l) = List.find? p l
  rw [h]

theorem find?_map_update (rows : List Row) (regId : Nat) (ps : Bool)
    (scr : Option String) :
    ((rows.map (fun r => if r.id == regId then updRow ps scr r else r)).find?
        (fun r => r.id == regId))
      = (rows.find? (fun r => r.id == regId)).map (updRow ps scr) := by
  induction rows with
  | nil => rfl
  | cons a l ih =>
    cases ha : (a.id == regId) with
    | true =>
      have h2 : ((updRow ps scr a).id == regId) = true := by
        rw [updRow_id_eq]; exact ha
      have e1 := @find?_cons_true Row (fun r => r.id == regId) (updRow ps scr a)
        (List.map (fun r => if r.id == regId then updRow ps scr r else r) l) h2
      have e2 := @find?_cons_true Row (fun r => r.id == regId) a l ha
      rw [List.map_cons, if_pos ha, e1, e2, Option.map_some']
    | false =>
      have hna : ¬(a.id == regId) = true := by
        rw [ha]; exact Bool.false_ne_true
      have e1 := @find?_cons_false Row (fun r => r.id == regId) a
        (List.map (fun r => if r.id == regId then updRow ps scr r else r) l) ha
      have e2 := @find?_cons_false Row (fun r => r.id == regId) a l ha
      rw [List.map_cons, if_neg hna, e1, e2, ih]

theorem map_update_idem (rows : List Row) (regId : Nat) (ps : Bool)
    (scr : Option String) :
    ((rows.map (fun r => if r.id == regId then updRow ps scr r else r)).map
        (fun r => if r.id == regId then updRow ps scr r else r))
      = rows.map (fun r => if r.id == regId then updRow ps scr r else r) := by
  rw [List.map_map]
  apply List.map_congr_left
  intro a _
  by_cases ha : (a.id == regId) = true
  · simp [Function.comp, ha, updRow_id_eq, updRow_idem]
  · simp [Function.comp, ha]

/-- C6: marking the same present registration paid twice is idempotent:
the second call still returns a row (no error), the state after two
invocations equals the state after one, and the returned row has
payment confirmed. -/
theorem markPaid_idempotent (st : Store) (regId : Nat) (scr : Option String)
    (h : (st.rows.find? (fun r => r.id == regId)).isSome = true) :
    update_registration_payment
        (update_registration_payment st regId true scr).1 regId true scr
      = update_registration_payment st regId true scr
    ∧ ((update_registration_payment st regId true scr).2.map
        Row.payment_status) = some true := by
  obtain ⟨u, hu⟩ := Option.isSome_iff_exists.mp h
  constructor
  · simp only [update_registration_payment, hu, find?_map_update,
      Option.map_some']
    rw [map_update_idem, updRow_idem]
  · simp [update_registration_payment, hu, updRow]

/-- Witness for C6 at a concrete store and its present id. -/
theorem markPaid_idempotent_witness :
    update_registration_payment
        (update_registration_payment wStore 1 true (some "file42")).1 1 true (some "file42")
      = update_registration_payment wStore 1 true (some "file42")
    ∧ ((update_registration_payment wStore 1 true (some "file42")).2.map
        Row.payment_status) = some true :=
  markPaid_idempotent wStore 1 (some "file42") (by decide)

/-- C8: grade validation accepts exactly the inputs that parse as an
integer within the configured bounds; both bounds are accepted, the values
just outside them are rejected, non-numeric input is rejected, and the
validator is total: every string yields either a rejection (false, 0) or an
acceptance whose value lies within the bounds.  Python `int` also parses
non-ASCII decimal digits, so the Arabic-Indic and fullwidth fives are
accepted as 5 while the Arabic-Indic nine is out of bounds. -/
theorem grade_validation_boundaries :
    validate_grade "1" = (true, 1)
    ∧ validate_grade "8" = (true, 8)
    ∧ validate_grade "0" = (false, 0)
    ∧ validate_grade "9" = (false, 0)
    ∧ validate_grade "abc" = (false, 0)
    ∧ validate_grade "٥" = (true, 5)
    ∧ validate_grade "５" = (true, 5)
    ∧ validate_grade "٩" = (false, 0)
    ∧ (∀ s : String, (validate_grade s).1 = true ↔
        ∃ g : Int, pyParseInt (pyStrip s) = some g ∧ MIN_GRADE ≤ g ∧ g ≤ MAX_GRADE)
    ∧ (∀ s : String, validate_grade s = (false, 0)
        ∨ ((validate_grade s).1 = true ∧ MIN_GRADE ≤ (validate_grade s).2
            ∧ (validate_grade s).2 ≤ MAX_GRADE)) := by
  refine ⟨by decide, by decide, by decide, by decide, by decide, by decide,
    by decide, by decide, ?_, ?_⟩
  · intro s
    cases h : pyParseInt (pyStrip s) with
    | none => simp [validate_grade, h]
    | some g =>
      by_cases hg : MIN_GRADE ≤ g ∧ g ≤ MAX_GRADE
      · simp [validate_grade, h, hg.1, hg.2]
      · simp only [validate_grade, h]
        rw [if_neg (by simpa [Bool.and_eq_true, decide_eq_true_eq] using hg)]
        refine ⟨fun hf => absurd hf (by decide), ?_⟩
        rintro ⟨g2, hg2, hlo, hhi⟩
        rw [Option.some.injEq] at hg2
        exact absurd ⟨hg2 ▸ hlo, hg2 ▸ hhi⟩ hg
  · intro s
    cases h : pyParseInt (pyStrip s) with
    | none => exact Or.inl (by simp [validate_grade, h])
    | some g =>
      by_cases hg : MIN_GRADE ≤ g ∧ g ≤ MAX_GRADE
      · exact Or.inr (by simp [validate_grade, h, hg.1, hg.2])
      · refine Or.inl ?_
        simp only [validate_grade, h]
        rw [if_neg (by simpa [Bool.and_eq_true, decide_eq_true_eq] using hg)]

inductive FieldTag
  | language | parent_name | email | surname | name | grade | school | phone
  | registration_id | charge_id
deriving DecidableEq, Repr

inductive Val
  | str (s : String)
  | int (i : Int)
  | nat (n : Nat)
  | lang (l : LanguageEnum)
deriving DecidableEq, Repr

def readField : FieldTag → SessData → Option Val
  | FieldTag.language, d => d.language.map Val.lang
  | FieldTag.parent_name, d => d.parent_name.map Val.str
  | FieldTag.email, d => d.email.map Val.str
  | FieldTag.surname, d => d.surname.map Val.str
  | FieldTag.name, d => d.name.map Val.str
  | FieldTag.grade, d => d.grade.map Val.int
  | FieldTag.school, d => d.school.map Val.str
  | FieldTag.phone, d => d.phone.map Val.str
  | FieldTag.registration_id, d => d.registration_id.map Val.nat
  | FieldTag.charge_id, d => d.charge_id.map Val.str

inductive CollectState
  | parentName | email | surname | name | grade | school
deriving DecidableEq, Repr

def CollectState.toReg : CollectState → RegState
  | CollectState.parentName => RegState.ParentName
  | CollectState.email => RegState.Email
  | CollectState.surname => RegState.Surname
  | CollectState.name => RegState.Name
  | CollectState.grade => RegState.Grade
  | CollectState.school => RegState.School

def CollectState.nextReg : CollectState → RegState
  | CollectState.parentName => RegState.Email
  | CollectState.email => RegState.Surname
  | CollectState.surname => RegState.Name
  | CollectState.name => RegState.Grade
  | CollectState.grade => RegState.School
  | CollectState.school => RegState.Phone

def CollectState.fieldOf : CollectState → FieldTag
  | CollectState.parentName => FieldTag.parent_name
  | CollectState.email => FieldTag.email
  | CollectState.surname => FieldTag.surname
  | CollectState.name => FieldTag.name
  | CollectState.grade => FieldTag.grade
  | CollectState.school => FieldTag.school

def CollectState.validFor : CollectState → String → Bool
  | CollectState.parentName, t => validate_name t && decide (2 ≤ t.length)
  | CollectState.email, t => validate_email t
  | CollectState.surname, t => validate_name t && decide (2 ≤ t.length)
  | CollectState.name, t => validate_name t && decide (2 ≤ t.length)
  | CollectState.grade, t => (validate_grade t).1
  | CollectState.school, t => !(t.data.isEmpty) && decide (2 ≤ t.length)

def CollectState.storedVal : CollectState → String → Val
  | CollectState.parentName, t => Val.str t
  | CollectState.email, t => Val.str t
  | CollectState.surname, t => Val.str t
  | CollectState.name, t => Val.str t
  | CollectState.grade, t => Val.int (validate_grade t).2
  | CollectState.school, t => Val.str t

def CollectState.errKey : CollectState → String
  | CollectState.parentName => "invalid_parent_name"
  | CollectState.email => "invalid_email"
  | CollectState.surname => "invalid_surname"
  | CollectState.name => "invalid_name"
  | CollectState.grade => "invalid_grade"
  | CollectState.school => "invalid_school"

def CollectState.promptKey : CollectState → String
  | CollectState.parentName => "ask_email"
  | CollectState.email => "ask_surname"
  | CollectState.surname => "ask_name"
  | CollectState.name => "ask_grade"
  | CollectState.grade => "ask_school"
  | CollectState.school => "ask_phone"

theorem bool_eq_false_of_ne_true {b : Bool} (h : ¬ b = true) : b = false := by
  cases b with
  | false => rfl
  | true => exact absurd rfl h

/-- C3: in every text-collecting state, a non-cancel input that fails the
state's validation rule leaves the session (step and every accumulated
field) unchanged and emits only that state's error prompt, while an input
that passes validation stores exactly that state's field (with the stripped
or parsed value), leaves every other field unchanged, advances to the next
state and emits the next prompt. -/
theorem collect_state_step (st : CollectState) (fsm : Fsm) (input : String)
    (hstep : fsm.step = some st.toReg)
    (hc : is_cancel_text (pyStrip input) = false) :
    if st.validFor (pyStrip input) = true then
      (handleText fsm input).1.step = some st.nextReg
      ∧ (handleText fsm input).2 = [st.promptKey]
      ∧ readField st.fieldOf (handleText fsm input).1.data
          = some (st.storedVal (pyStrip input))
      ∧ ∀ f : FieldTag, f ≠ st.fieldOf →
          readField f (handleText fsm input).1.data = readField f fsm.data
    else
      (handleText fsm input).1 = fsm ∧ (handleText fsm input).2 = [st.errKey] := by
  obtain ⟨step, data⟩ := fsm
  simp only [Fsm.mk.injEq] at hstep ⊢
  have hcne : ¬ (is_cancel_text (pyStrip input) = true) := by
    rw [hc]; exact Bool.false_ne_true
  cases st with
  | parentName =>
    cases hstep
    simp only [CollectState.validFor, CollectState.toReg, CollectState.nextReg,
      CollectState.fieldOf, CollectState.storedVal, CollectState.errKey,
      CollectState.promptKey]
    by_cases hv : (validate_name (pyStrip input) && decide (2 ≤ (pyStrip input).length)) = true
    · rw [if_pos hv]
      have hv2 := hv
      rw [Bool.and_eq_true] at hv2
      obtain ⟨h1, h2⟩ := hv2
      have h2n : 2 ≤ (pyStrip input).length := of_decide_eq_true h2
      have hinv : (!validate_name (pyStrip input) || decide ((pyStrip input).length < 2)) = false := by
        simp [h1]
        omega
      simp only [handleText, process_parent_name, if_neg hcne, hinv,
        Bool.false_eq_true, if_false]
      refine ⟨by trivial, by trivial, by trivial, ?_⟩
      intro f hf
      cases f <;> first | rfl | exact absurd rfl hf
    · rw [if_neg hv]
      have hinv : (!validate_name (pyStrip input) || decide ((pyStrip input).length < 2)) = true := by
        by_cases ha : validate_name (pyStrip input) = true
        · have hlen : ¬ 2 ≤ (pyStrip input).length := by
            intro hge
            exact hv (by simp [ha, hge])
          simp [ha]
          omega
        · simp [bool_eq_false_of_ne_true ha]
      simp only [handleText, process_parent_name, if_neg hcne, hinv, if_true]
      constructor <;> trivial
  | email =>
    cases hstep
    simp only [CollectState.validFor, CollectState.toReg, CollectState.nextReg,
      CollectState.fieldOf, CollectState.storedVal, CollectState.errKey,
      CollectState.promptKey]
    by_cases hv : validate_email (pyStrip input) = true
    · rw [if_pos hv]
      have hinv : (!validate_email (pyStrip input)) = false := by simp [hv]
      simp only [handleText, process_email, if_neg hcne, hinv,
        Bool.false_eq_true, if_false]
      refine ⟨by trivial, by trivial, by trivial, ?_⟩
      intro f hf
      cases f <;> first | rfl | exact absurd rfl hf
    · rw [if_neg hv]
      have hinv : (!validate_email (pyStrip input)) = true := by
        simp [bool_eq_false_of_ne_true hv]
      simp only [handleText, process_email, if_neg hcne, hinv, if_true]
      constructor <;> trivial
  | surname =>
    cases hstep
    simp only [CollectState.validFor, CollectState.toReg, CollectState.nextReg,
      CollectState.fieldOf, CollectState.storedVal, CollectState.errKey,
      CollectState.promptKey]
    by_cases hv : (validate_name (pyStrip input) && decide (2 ≤ (pyStrip input).length)) = true
    · rw [if_pos hv]
      have hv2 := hv
      rw [Bool.and_eq_true] at hv2
      obtain ⟨h1, h2⟩ := hv2
      have h2n : 2 ≤ (pyStrip input).length := of_decide_eq_true h2
      have hinv : (!validate_name (pyStrip input) || decide ((pyStrip input).length < 2)) = false := by
        simp [h1]
        omega
      simp only [handleText, process_surname, if_neg hcne, hinv,
        Bool.false_eq_true, if_false]
      refine ⟨by trivial, by trivial, by trivial, ?_⟩
      intro f hf
      cases f <;> first | rfl | exact absurd rfl hf
    · rw [if_neg hv]
      have hinv : (!validate_name (pyStrip input) || decide ((pyStrip input).length < 2)) = true := by
        by_cases ha : validate_name (pyStrip input) = true
        · have hlen : ¬ 2 ≤ (pyStrip input).length := by
            intro hge
            exact hv (by simp [ha, hge])
          simp [ha]
          omega
        · simp [bool_eq_false_of_ne_true ha]
      simp only [handleText, process_surname, if_neg hcne, hinv, if_true]
      constructor <;> trivial
  | name =>
    cases hstep
    simp only [CollectState.validFor, CollectState.toReg, CollectState.nextReg,
      CollectState.fieldOf, CollectState.storedVal, CollectState.errKey,
      CollectState.promptKey]
    by_cases hv : (validate_name (pyStrip input) && decide (2 ≤ (pyStrip input).length)) = true
    · rw [if_pos hv]
      have hv2 := hv
      rw [Bool.and_eq_true] at hv2
      obtain ⟨h1, h2⟩ := hv2
      have h2n : 2 ≤ (pyStrip input).length := of_decide_eq_true h2
      have hinv : (!validate_name (pyStrip input) || decide ((pyStrip input).length < 2)) = false := by
        simp [h1]
        omega
      simp only [handleText, process_name, if_neg hcne, hinv,
        Bool.false_eq_true, if_false]
      refine ⟨by trivial, by trivial, by trivial, ?_⟩
      intro f hf
      cases f <;> first | rfl | exact absurd rfl hf
    · rw [if_neg hv]
      have hinv : (!validate_name (pyStrip input) || decide ((pyStrip input).length < 2)) = true := by
        by_cases ha : validate_name (pyStrip input) = true
        · have hlen : ¬ 2 ≤ (pyStrip input).length := by
            intro hge
            exact hv (by simp [ha, hge])
          simp [ha]
          omega
        · simp [bool_eq_false_of_ne_true ha]
      simp only [handleText, process_name, if_neg hcne, hinv, if_true]
      constructor <;> trivial
  | grade =>
    cases hstep
    simp only [CollectState.validFor, CollectState.toReg, CollectState.nextReg,
      CollectState.fieldOf, CollectState.storedVal, CollectState.errKey,
      CollectState.promptKey]
    cases hval : validate_grade (pyStrip input) with
    | mk b g =>
      cases b with
      | true =>
        rw [if_pos (by rfl)]
        simp only [handleText, process_grade, if_neg hcne, hval]
        refine ⟨by trivial, by trivial, by trivial, ?_⟩
        intro f hf
        cases f <;> first | rfl | exact absurd rfl hf
      | false =>
        rw [if_neg (by exact Bool.false_ne_true)]
        simp only [handleText, process_grade, if_neg hcne, hval]
        constructor <;> trivial
  | school =>
    cases hstep
    simp only [CollectState.validFor, CollectState.toReg, CollectState.nextReg,
      CollectState.fieldOf, CollectState.storedVal, CollectState.errKey,
      CollectState.promptKey]
    by_cases hv : (!(pyStrip input).data.isEmpty && decide (2 ≤ (pyStrip input).length)) = true
    · rw [if_pos hv]
      have hv2 := hv
      rw [Bool.and_eq_true] at hv2
      obtain ⟨h1, h2⟩ := hv2
      have h2n : 2 ≤ (pyStrip input).length := of_decide_eq_true h2
      have hinv : ((pyStrip input).data.isEmpty || decide ((pyStrip input).length < 2)) = false := by
        simp only [Bool.not_eq_true'] at h1
        simp [h1]
        omega
      simp only [handleText, process_school, if_neg hcne, hinv,
        Bool.false_eq_true, if_false]
      refine ⟨by trivial, by trivial, by trivial, ?_⟩
      intro f hf
      cases f <;> first | rfl | exact absurd rfl hf
    · rw [if_neg hv]
      have hinv : ((pyStrip input).data.isEmpty || decide ((pyStrip input).length < 2)) = true := by
        by_cases ha : (pyStrip input).data.isEmpty = true
        · simp [ha]
        · have ha2 := bool_eq_false_of_ne_true ha
          have hlen : ¬ 2 ≤ (pyStrip input).length := by
            intro hge
            exact hv (by simp [ha2, hge])
          simp [ha2]
          omega
      simp only [handleText, process_school, if_neg hcne, hinv, if_true]
      constructor <;> trivial

/-- Witness for C3: a valid parent name in the ParentName state. -/
theorem collect_state_step_witness :
    if CollectState.parentName.validFor (pyStrip "John Doe") = true then
      (handleText ⟨some RegState.ParentName, {}⟩ "John Doe").1.step
          = some CollectState.parentName.nextReg
      ∧ (handleText ⟨some RegState.ParentName, {}⟩ "John Doe").2
          = [CollectState.parentName.promptKey]
      ∧ readField CollectState.parentName.fieldOf
            (handleText ⟨some RegState.ParentName, {}⟩ "John Doe").1.data
          = some (CollectState.parentName.storedVal (pyStrip "John Doe"))
      ∧ ∀ f : FieldTag, f ≠ CollectState.parentName.fieldOf →
          readField f (handleText ⟨some RegState.ParentName, {}⟩ "John Doe").1.data
            = readField f (SessData.mk none none none none none none none none none none)
    else
      (handleText ⟨some RegState.ParentName, {}⟩ "John Doe").1
          = ⟨some RegState.ParentName, {}⟩
      ∧ (handleText ⟨some RegState.ParentName, {}⟩ "John Doe").2
          = [CollectState.parentName.errKey] :=
  collect_state_step CollectState.parentName ⟨some RegState.ParentName, {}⟩
    "John Doe" rfl (by decide)

/-- A concrete partially-filled session in the screenshot-proof state. -/
def proofStateData : SessData :=
  { language := some LanguageEnum.RU, parent_name := some "Anna Petrova",
    email := some "a@b.com", surname := some "Petrova", name := some "Ivan",
    grade := some 3, school := some "School 1", phone := some "+998900000000",
    registration_id := some 7, charge_id := some "7_Petrova_Ivan_3" }

/-- C4 counterexample: in the ScreenshotProof state the cancel phrase does
not cancel; the handler for non-photo input never checks the cancel text,
so the session stays in ScreenshotProof with all accumulated fields intact
and the invalid-screenshot prompt is emitted instead of a cancellation. -/
theorem cancel_ignored_in_screenshot_state :
    is_cancel_text "❌ Отмена" = true
    ∧ ¬ ((handleText ⟨some RegState.ScreenshotProof, proofStateData⟩ "❌ Отмена").1.step
          = none)
    ∧ ¬ ((handleText ⟨some RegState.ScreenshotProof, proofStateData⟩ "❌ Отмена").1.data
          = ({} : SessData))
    ∧ (handleText ⟨some RegState.ScreenshotProof, proofStateData⟩ "❌ Отмена")
        = (⟨some RegState.ScreenshotProof, proofStateData⟩, ["invalid_screenshot"]) := by
  decide

/-- The states whose text handlers do check the cancel phrase. -/
inductive CancelableState
  | parentName | email | surname | name | grade | school | phone
deriving DecidableEq, Repr

def CancelableState.toReg : CancelableState → RegState
  | CancelableState.parentName => RegState.ParentName
  | CancelableState.email => RegState.Email
  | CancelableState.surname => RegState.Surname
  | CancelableState.name => RegState.Name
  | CancelableState.grade => RegState.Grade
  | CancelableState.school => RegState.School
  | CancelableState.phone => RegState.Phone

/-- C4 amended: an input equal to the cancel phrase cancels the session
(clearing the step and every accumulated field, and emitting the
cancellation notice) exactly from the text-input states ParentName through
Phone; in LanguageSelect, Payment and ScreenshotProof the cancel phrase is
not treated as a cancellation (see the counterexample). -/
theorem cancel_clears_from_text_states (st : CancelableState) (fsm : Fsm)
    (input : String) (hstep : fsm.step = some st.toReg)
    (hc : is_cancel_text (pyStrip input) = true) :
    handleText fsm input = (⟨none, {}⟩, ["cancelled"]) := by
  obtain ⟨step, data⟩ := fsm
  simp only at hstep
  cases st <;> cases hstep <;>
    simp only [handleText, process_parent_name, process_email, process_surname,
      process_name, process_grade, process_school, process_phone_text,
      CancelableState.toReg, if_pos hc, cmd_cancel_result]

/-- Witness for the amended C4: the Russian cancel phrase in the Grade
state clears the session. -/
theorem cancel_clears_from_text_states_witness :
    handleText ⟨some RegState.Grade, proofStateData⟩ "❌ Cancel"
      = (⟨none, {}⟩, ["cancelled"]) :=
  cancel_clears_from_text_states CancelableState.grade
    ⟨some RegState.Grade, proofStateData⟩ "❌ Cancel" rfl (by decide)
